import Mathlib

/-!
Shallow embedding of `textgen/Imaging.py` from scisup/lofar_text_generator.

Python strings are modelled as `List Char`; the string primitives used by the
source (`split`, `replace`, `strip`, `splitlines`, `in`, `int()`, `float()`)
are reimplemented with structural (fuel) recursion so that every definition
evaluates inside the kernel.  Floats are modelled as exact rationals `ℚ`.
The source is Python 2 (`int / int` is floor division, `float / int` is true
division); overflow does not arise since Python integers are unbounded.
External astronomy collaborators (pyephem / astropy elevation and coordinate
computations) are passed in as oracle functions, following the capability
interface the spec assigns to them.
-/

set_option synthInstance.maxSize 1024

/-- Python strings are modelled as lists of characters. -/
abbrev PS := List Char

/-- Shorthand turning a Lean string literal into the `List Char` model. -/
def S (s : String) : PS := s.data

/-- The ASCII apostrophe character (code 39), used by Python `repr` of lists. -/
def squote : Char := Char.ofNat 39

/-- `isPre a b` is true when `a` is a leading segment of `b`. -/
def isPre : PS → PS → Bool
  | [], _ => true
  | _ :: _, [] => false
  | a :: as, b :: bs => a == b && isPre as bs

/-- Fuel-driven worker for `splitL`; the fuel bounds the number of consumed
characters, so structural recursion suffices. -/
def splitFuel (sep : PS) : Nat → PS → List PS
  | _, [] => [[]]
  | 0, s => [s]
  | n + 1, c :: cs =>
    if isPre sep (c :: cs) then
      [] :: splitFuel sep n (List.drop (sep.length - 1) cs)
    else
      match splitFuel sep n cs with
      | [] => [[c]]
      | t :: ts => (c :: t) :: ts

/-- Python `s.split(sep)` for a non-empty separator: non-overlapping,
left-to-right; `''.split(sep) == ['']`.  (Python rejects an empty separator;
we return `[s]` in that dead case.) -/
def splitL (sep s : PS) : List PS :=
  if sep = [] then [s] else splitFuel sep s.length s

/-- Fuel-driven worker for `replaceL`. -/
def replFuel (old new : PS) : Nat → PS → PS
  | _, [] => []
  | 0, s => s
  | n + 1, c :: cs =>
    if isPre old (c :: cs) then
      new ++ replFuel old new n (List.drop (old.length - 1) cs)
    else
      c :: replFuel old new n cs

/-- Python `s.replace(old, new)` for non-empty `old`: replaces all
non-overlapping occurrences left-to-right. -/
def replaceL (old new s : PS) : PS :=
  if old = [] then s else replFuel old new s.length s

/-- Python whitespace as stripped by `str.strip()` / `int()` / `float()`. -/
def isSpaceC (c : Char) : Bool :=
  c == ' ' || c == '\t' || c == '\n' || c == '\r' || c == '\x0b' || c == '\x0c'

/-- Python `s.strip()` (ASCII whitespace). -/
def stripL (s : PS) : PS :=
  ((s.dropWhile isSpaceC).reverse.dropWhile isSpaceC).reverse

/-- Worker for `splitlinesL`: splits at `\n`, `\r\n` or `\r`; the trailing
piece after the final terminator is always produced (possibly empty). -/
def slAux : PS → List PS
  | [] => [[]]
  | '\r' :: '\n' :: cs => [] :: slAux cs
  | '\r' :: cs => [] :: slAux cs
  | '\n' :: cs => [] :: slAux cs
  | c :: cs =>
    match slAux cs with
    | [] => [[c]]
    | t :: ts => (c :: t) :: ts

/-- Python `s.splitlines()`: like `slAux` but the piece after the final line
terminator is dropped when it is empty, and `''.splitlines() == []`. -/
def splitlinesL (s : PS) : List PS :=
  let r := slAux s
  if r.getLast? = some [] then r.dropLast else r

/-- Join a list of strings with a separator (Python `sep.join(l)`). -/
def joinSep (sep : PS) : List PS → PS
  | [] => []
  | [x] => x
  | x :: xs => x ++ sep ++ joinSep sep xs

/-- Decimal digits of `n`, most significant first; fuel-driven. -/
def natDigitsAux : Nat → Nat → PS
  | 0, _ => []
  | fuel + 1, n =>
    if n = 0 then [] else natDigitsAux fuel (n / 10) ++ [Char.ofNat (48 + n % 10)]

/-- Python `str(n)` for a non-negative integer. -/
def natToDigits (n : Nat) : PS :=
  if n = 0 then ['0'] else natDigitsAux (n + 1) n

/-- Python `str(i)` for an integer. -/
def intToStr (i : Int) : PS :=
  if i < 0 then '-' :: natToDigits i.natAbs else natToDigits i.toNat

/-- Numeric value of a non-empty all-digit string; `none` otherwise. -/
def digitsVal (l : PS) : Option Nat :=
  match l with
  | [] => none
  | _ =>
    if l.all Char.isDigit then
      some (l.foldl (fun a c => a * 10 + (c.toNat - 48)) 0)
    else none

/-- Numeric value of a digit string, `0` on garbage (used where a parse has
already been checked). -/
def digitsAsNat (l : PS) : Nat :=
  l.foldl (fun a c => a * 10 + (c.toNat - 48)) 0

/-- Python `int(s)` on a string: strips whitespace, optional sign, decimal
digits; `none` models the `ValueError`. -/
def pyInt (s : PS) : Option Int :=
  match stripL s with
  | '+' :: rest => (digitsVal rest).map (fun n => (n : Int))
  | '-' :: rest => (digitsVal rest).map (fun n => -(n : Int))
  | t => (digitsVal t).map (fun n => (n : Int))

/-- Mantissa of a Python float literal: `digits`, `digits.`, `.digits` or
`digits.digits`. -/
def parseMantissa (m : PS) : Option ℚ :=
  match splitL ['.'] m with
  | [i] => (digitsVal i).map (fun n => (n : ℚ))
  | [i, f] =>
    if i = [] ∧ f = [] then none
    else if (i = [] || i.all Char.isDigit) && (f = [] || f.all Char.isDigit) then
      some ((digitsAsNat i : ℚ) + (digitsAsNat f : ℚ) / ((10 : ℚ) ^ f.length))
    else none
  | _ => none

/-- Exponent part of a Python float literal: optional sign and digits. -/
def parseExp (x : PS) : Option Int :=
  match x with
  | '+' :: rest => (digitsVal rest).map (fun n => (n : Int))
  | '-' :: rest => (digitsVal rest).map (fun n => -(n : Int))
  | t => (digitsVal t).map (fun n => (n : Int))

/-- Split a float literal at `e`/`E` into mantissa and optional exponent;
`(t, some [])` encodes a malformed exponent structure (it can never parse). -/
def splitExp (t : PS) : PS × Option PS :=
  match splitL ['e'] t with
  | [m] =>
    match splitL ['E'] m with
    | [m2] => (m2, none)
    | [m2, x] => (m2, some x)
    | _ => (t, some [])
  | [m, x] =>
    if (splitL ['E'] m).length = 1 ∧ (splitL ['E'] x).length = 1 then (m, some x)
    else (t, some [])
  | _ => (t, some [])

/-- Python `float(s)` restricted to finite decimal literals (the source never
feeds `inf`/`nan`); `none` models the `ValueError`. -/
def pyFloat (s : PS) : Option ℚ :=
  let body : PS → Option ℚ := fun t =>
    match splitExp t with
    | (m, none) => parseMantissa m
    | (m, some x) =>
      match parseMantissa m, parseExp x with
      | some q, some e => some (q * (10 : ℚ) ^ e)
      | _, _ => none
  match stripL s with
  | '+' :: rest => body rest
  | '-' :: rest => (body rest).map Neg.neg
  | t => body t

/-- Python `int()` truncation toward zero applied to an exact rational. -/
def ratTrunc (q : ℚ) : Int := q.num / (q.den : Int)

/-- The error kinds of the generator.  The error classes themselves live in a
module of the repository that is not part of the provided source; the
constructor names follow the `raise` sites in `Imaging.py` plus the spec's
taxonomy (§7).  `noCalibratorAvailable` is modelled from the spec: the spec
names this kind but no raise of it exists in the provided source.
`valueError`, `indexError` and `keyError` model the Python built-in
exceptions that the source can let escape. -/
inductive PyErr where
  | tooLongFolderName
  | invalidMainFolderName
  | invalidDateTime
  | invalidElevation
  | invalidAverage
  | invalidSubband
  | invalidSubBand
  | outOfBoundsSubBand
  | invalidSubBandOrder
  | tooManyBeamlets
  | invalidDuration
  | tooManyAteam
  | invalidAteam
  | noCalibratorAvailable
  | valueError
  | indexError
  | keyError
  deriving DecidableEq

instance {ε α : Type} [DecidableEq ε] [DecidableEq α] : DecidableEq (Except ε α) :=
  fun x y =>
    match x, y with
    | .ok a, .ok b =>
      if h : a = b then isTrue (by rw [h])
      else isFalse (by intro hh; cases hh; exact h rfl)
    | .error a, .error b =>
      if h : a = b then isTrue (by rw [h])
      else isFalse (by intro hh; cases hh; exact h rfl)
    | .ok _, .error _ => isFalse (by intro h; cases h)
    | .error _, .ok _ => isFalse (by intro h; cases h)

/-- Python list indexing `l[i]` for a non-negative index: `IndexError` when
out of range. -/
def pyIndex {α : Type} (l : List α) (i : Nat) : Except PyErr α :=
  match l.get? i with
  | some x => .ok x
  | none => .error .indexError

/-- A `datetime.datetime` value: the six integer fields the source builds
from the date string. -/
structure DT6 where
  year : Int
  month : Int
  day : Int
  hour : Int
  minute : Int
  second : Int
  deriving DecidableEq

/-- Gregorian leap year (as used by `datetime`). -/
def isLeap (y : Int) : Bool :=
  y % 4 = 0 && (y % 100 ≠ 0 || y % 400 = 0)

/-- Days in a month of the proleptic Gregorian calendar. -/
def daysInMonth (y m : Int) : Int :=
  if m = 2 then (if isLeap y then 29 else 28)
  else if m = 4 ∨ m = 6 ∨ m = 9 ∨ m = 11 then 30
  else 31

/-- Validity condition enforced by the `datetime.datetime` constructor. -/
def dtValid (y mo da h mi se : Int) : Bool :=
  1 ≤ y && y ≤ 9999 && 1 ≤ mo && mo ≤ 12 && 1 ≤ da && da ≤ daysInMonth y mo
    && 0 ≤ h && h < 24 && 0 ≤ mi && mi < 60 && 0 ≤ se && se < 60

/-- `dy, dm, ds, th, tm, ts = s.split('-')` followed by
`datetime.datetime(int(dy), ...)`; `none` models any exception (the source
wraps this in a bare `except`). -/
def parseDateTime (s : PS) : Option DT6 :=
  match splitL ['-'] s with
  | [a, b, c, d, e, f] =>
    match pyInt a, pyInt b, pyInt c, pyInt d, pyInt e, pyInt f with
    | some y, some mo, some da, some h, some mi, some se =>
      if dtValid y mo da h mi se then some ⟨y, mo, da, h, mi, se⟩ else none
    | _, _, _, _, _, _ => none
  | _ => none

/-- The raw text fields delivered by the Tk form (`gui.*.get()`), the
external source of strings per the spec. -/
structure Gui where
  projNameT : PS
  mainNameT : PS
  dateT : PS
  elevationT : PS
  avgT : PS
  freqModeStr : PS
  subbandT : PS
  pointT : PS
  durationT : PS

/-- `Imaging.VALID_CALIBS`: the five calibrators usable for selection. -/
def VALID_CALIBS : List PS :=
  [S "3C295", S "3C196", S "3C48", S "3C147", S "3C380"]

/-- `Imaging.VALID_ATEAMS`: the A-team source catalog. -/
def VALID_ATEAMS : List PS :=
  [S "CasA", S "CygA", S "TauA", S "VirA"]

/-- `Imaging._getClockFreq`. -/
def getClockFreq (rcumode : PS) : PS :=
  if rcumode = S "170-230 MHz" then S "160 MHz" else S "200 MHz"

/-- The per-mode bound test shared by the two branches of
`Imaging._validateSubBands`: `a` is checked against the lower bound and `b`
against the upper bound. -/
def checkBounds (rcumode : PS) (a b : Int) : Except PyErr Unit :=
  if rcumode = S "30-90 MHz" then
    if a < 154 ∨ 461 < b then .error .outOfBoundsSubBand else .ok ()
  else if rcumode = S "170-230 MHz" then
    if a < 64 ∨ 448 < b then .error .outOfBoundsSubBand else .ok ()
  else
    if a < 51 ∨ 461 < b then .error .outOfBoundsSubBand else .ok ()

/-- The token loop of `Imaging._validateSubBands`.  A token without `..`
must parse as an integer (a bare `except` maps any parse failure to
`InvalidSubBandError`); a token with `..` has its first two `..`-separated
parts parsed (`item.split('..')[0]` / `[1]`, further parts are ignored),
order-checked, then bound-checked. -/
def validateTokens (rcumode : PS) : List PS → Except PyErr Unit
  | [] => .ok ()
  | item :: rest =>
    if (splitL (S "..") item).length = 1 then
      match pyInt item with
      | none => .error .invalidSubBand
      | some s1 =>
        match checkBounds rcumode s1 s1 with
        | .error e => .error e
        | .ok _ => validateTokens rcumode rest
    else
      match pyInt ((splitL (S "..") item).getD 0 []),
            pyInt ((splitL (S "..") item).getD 1 []) with
      | some s1, some s2 =>
        if s2 < s1 then .error .invalidSubBandOrder
        else
          match checkBounds rcumode s1 s2 with
          | .error e => .error e
          | .ok _ => validateTokens rcumode rest
      | _, _ => .error .invalidSubBand

/-- `Imaging._validateSubBands`. -/
def validateSubBands (subbands rcumode : PS) : Except PyErr Unit :=
  validateTokens rcumode (splitL [','] subbands)

/-- The token loop of `Imaging._countSubBands`; the `int()` calls are not
guarded there, so a parse failure is an escaping `ValueError`. -/
def countTokens : List PS → Except PyErr Int
  | [] => .ok 0
  | item :: rest =>
    if (splitL (S "..") item).length = 1 then
      match countTokens rest with
      | .error e => .error e
      | .ok c => .ok (c + 1)
    else
      match pyInt ((splitL (S "..") item).getD 0 []),
            pyInt ((splitL (S "..") item).getD 1 []) with
      | some s1, some s2 =>
        match countTokens rest with
        | .error e => .error e
        | .ok c => .ok (c + (s2 - s1 + 1))
      | _, _ => .error .valueError

/-- `Imaging._countSubBands`. -/
def countSubBands (subbands : PS) : Except PyErr Int :=
  countTokens (splitL [','] subbands)

/-- The line loop of `Imaging._parsePointString`: `line.split(',')` then
`splitStr[0]`, `splitStr[1]`, `splitStr[2]`, `splitStr[3:]`.  A line with
fewer than three comma-separated fields hits an `IndexError`. -/
def parseLines : List PS → Except PyErr (List PS × List PS × List PS × List (List PS))
  | [] => .ok ([], [], [], [])
  | line :: rest =>
    let parts := splitL [','] line
    match parts.get? 0, parts.get? 1, parts.get? 2 with
    | some a, some b, some c =>
      match parseLines rest with
      | .error e => .error e
      | .ok (ls, ras, decs, ds) => .ok (a :: ls, b :: ras, c :: decs, parts.drop 3 :: ds)
    | _, _, _ => .error .indexError

/-- `Imaging._parsePointString`. -/
def parsePointString (s : PS) :
    Except PyErr (List PS × List PS × List PS × List (List PS)) :=
  parseLines (splitlinesL s)

/-- The validated observation request built by `Imaging.__init__`. -/
structure Request where
  projectName : PS
  mainName : PS
  startTime : DT6
  elevation : ℚ
  avg : PS
  rcumode : PS
  clockFreq : PS
  subbands : PS
  nSubBands : Int
  targetLabel : List PS
  targetRA : List PS
  targetDec : List PS
  demixLabel : List (List PS)
  nBeams : Nat
  targetObsLength : ℚ
  deriving DecidableEq

/-- `Imaging.__init__`: field-by-field validation in declaration order,
first failure wins.  The pointing parse is wrapped in `except ValueError`,
which maps only a `ValueError` to `InvalidSubbandError` — an `IndexError`
from short lines escapes unchanged. -/
def imagingInit (g : Gui) : Except PyErr Request :=
  if 20 < g.mainNameT.length then .error .tooLongFolderName
  else if g.mainNameT = [] then .error .invalidMainFolderName
  else match parseDateTime g.dateT with
  | none => .error .invalidDateTime
  | some dt =>
  match pyFloat g.elevationT with
  | none => .error .invalidElevation
  | some elev =>
  if elev < 0 ∨ 90 < elev then .error .invalidElevation
  else if (splitL [','] g.avgT).length ≠ 2 then .error .invalidAverage
  else if (pyFloat ((splitL [','] g.avgT).getD 0 [])).isNone
       ∨ (pyFloat ((splitL [','] g.avgT).getD 1 [])).isNone then .error .invalidAverage
  else match validateSubBands g.subbandT g.freqModeStr with
  | .error e => .error e
  | .ok _ =>
  match countSubBands g.subbandT with
  | .error e => .error e
  | .ok nSub =>
  match (match parsePointString g.pointT with
         | .error .valueError => Except.error PyErr.invalidSubband
         | r => r) with
  | .error e => .error e
  | .ok (lbls, ras, decs, dmx) =>
  if 488 < (lbls.length : Int) * nSub then .error .tooManyBeamlets
  else match pyFloat g.durationT with
  | none => .error .invalidDuration
  | some dur =>
  if dur < 0 then .error .invalidDuration
  else .ok
    { projectName := g.projNameT
      mainName := g.mainNameT
      startTime := dt
      elevation := elev
      avg := g.avgT
      rcumode := g.freqModeStr
      clockFreq := getClockFreq g.freqModeStr
      subbands := g.subbandT
      nSubBands := nSub
      targetLabel := lbls
      targetRA := ras
      targetDec := decs
      demixLabel := dmx
      nBeams := lbls.length
      targetObsLength := dur }

/-- `Imaging.COMMON_STR`, as assembled in `__init__`. -/
def COMMON_STR (rcumode : PS) : PS :=
  S "split_targets=F\ncalibration=none\nprocessing=Preprocessing\nimagingPipeline=none\ncluster=CEP4\nrepeat=1\nnr_cores_per_task=2\npackageDescription=HBA Dual Inner, "
  ++ rcumode
  ++ S ", 8bits, 48MHz@144MHz, 1s, 64ch/sb\nantennaMode=HBA Dual Inner\nnumberOfBitsPerSample=8\nintegrationTime=1.0\nchannelsPerSubband=64\nstationList=all\ntbbPiggybackAllowed=T\naartfaacPiggybackAllowed=T\ncorrelatedData=T\ncoherentStokesData=F\nincoherentStokesData=F\nflysEye=F\ncoherentDedisperseChannels=False\nflaggingStrategy=HBAdefault\ntimeStep1=60\ntimeStep2=60"

/-- `Imaging.makeHeader` (chunk per `outFile.write`). -/
def makeHeader (r : Request) : List PS :=
  [S "projectName=" ++ r.projectName ++ S "\n",
   S "mainFolderName=" ++ r.mainName ++ S "\n",
   S "mainFolderDescription=Preprocessing:HBA Dual Inner, " ++ r.rcumode
     ++ S ", 8bits, 48MHz@144MHz, 1s, 64ch/sb\n\n"]

/-- `Imaging._getCalPointing`: the seven-entry coordinate dictionary;
`none` models a `KeyError`. -/
def getCalPointing (calName : PS) : Option PS :=
  if calName = S "3C295" then some (S "14:11:20.5;52:12:10")
  else if calName = S "3C196" then some (S "08:13:36.0;48:13:03")
  else if calName = S "3C48" then some (S "01:37:41.3;33:09:35")
  else if calName = S "3C147" then some (S "05:42:36.1;49:51:07")
  else if calName = S "3C380" then some (S "18:29:31.8;48:44:46")
  else if calName = S "3C286" then some (S "13:31:08.3;30:30:33")
  else if calName = S "CTD93" then some (S "16:09:13.3;26:41:29")
  else none

/-- `np.argmin` on a list of rationals: index of the first minimum
(`0` on the empty list, whose real counterpart raises). -/
def argminQ : List ℚ → Nat
  | [] => 0
  | [_] => 0
  | x :: y :: rest =>
    if x ≤ (y :: rest).getD (argminQ (y :: rest)) 0 then 0 else argminQ (y :: rest) + 1

/-- Elevation of a catalog calibrator through the oracle `e` (ra, dec ↦
elevation in degrees at the site and time): `_getCalPointing` coordinates
split at `;`.  Dead default `0` for names outside the dictionary. -/
def calElev (e : PS → PS → ℚ) (calName : PS) : ℚ :=
  match getCalPointing calName with
  | some coord => e ((splitL [';'] coord).getD 0 []) ((splitL [';'] coord).getD 1 [])
  | none => 0

/-- The catalog loop of `Imaging.findCalibrator`: collect, in catalog order,
the names whose elevation strictly exceeds the threshold, together with
their `|calibratorElevation - targetElevation|` distances. -/
def scanCalibs (e : PS → PS → ℚ) (threshold tElev : ℚ) :
    List PS → Except PyErr (List PS × List ℚ)
  | [] => .ok ([], [])
  | item :: rest =>
    match getCalPointing item with
    | none => .error .keyError
    | some _ =>
      match scanCalibs e threshold tElev rest with
      | .error er => .error er
      | .ok (ns, ds) =>
        if threshold < calElev e item then
          .ok (item :: ns, |calElev e item - tElev| :: ds)
        else .ok (ns, ds)

/-- `Imaging.findCalibrator`: target elevation from the first pointing only;
`np.argmin` of an empty distance list is a `ValueError`. -/
def findCalibrator (e : PS → PS → ℚ) (targetRA targetDec : List PS)
    (threshold : ℚ) : Except PyErr PS :=
  match targetRA.get? 0, targetDec.get? 0 with
  | some ra0, some dec0 =>
    match scanCalibs e threshold (e ra0 dec0) VALID_CALIBS with
    | .error er => .error er
    | .ok (names, dists) =>
      if names.isEmpty then .error .valueError
      else
        match names.get? (argminQ dists) with
        | some nm => .ok nm
        | none => .error .indexError
  | _, _ => .error .indexError

/-- Python `repr` of a list of strings: `['a', 'b']`. -/
def pyReprList (l : List PS) : PS :=
  ['['] ++ joinSep (S ", ") (l.map (fun x => [squote] ++ x ++ [squote])) ++ [']']

/-- The demix-string computation inside the target loop of
`Imaging.writeHBATarget`: empty lists render as `''`; otherwise at most two
entries, all from the A-team catalog, rendered as the list `repr` with
quotes and spaces removed. -/
def demixStrOf (dmx : List PS) : Except PyErr PS :=
  if dmx = [] ∨ dmx = [[]] then .ok []
  else if 2 < dmx.length then .error .tooManyAteam
  else if dmx.all (fun x => decide (x ∈ VALID_ATEAMS)) then
    .ok (replaceL [' '] [] (replaceL [squote] [] (pyReprList dmx)))
  else .error .invalidAteam

/-- A user target beam line of `writeHBATarget`. -/
def beamLine (ra dec lbl : PS) : PS :=
  ra ++ S ";" ++ dec ++ S ";" ++ lbl ++ S ";;;;;T;31200\n"

/-- A `Demix=` line of `writeHBATarget`. -/
def demixLine (avg ds : PS) : PS :=
  S "Demix=" ++ replaceL [','] [';'] avg ++ S ";64;10;;" ++ ds ++ S ";F\n"

/-- The `for index in range(self.nBeams)` loop of `writeHBATarget`; the
chunks written by the iterations before the first failure, if any. -/
def targetIter (r : Request) : List Nat → List PS × Except PyErr Unit
  | [] => ([], .ok ())
  | i :: rest =>
    match pyIndex r.demixLabel i with
    | .error e => ([], .error e)
    | .ok dmx =>
      match demixStrOf dmx with
      | .error e => ([], .error e)
      | .ok ds =>
        match pyIndex r.targetRA i, pyIndex r.targetDec i, pyIndex r.targetLabel i with
        | .ok ra, .ok dec, .ok lbl =>
          let (cs, res) := targetIter r rest
          (beamLine ra dec lbl :: demixLine r.avg ds :: cs, res)
        | _, _, _ => ([], .error .indexError)

/-- The summation loop of `Imaging._getTileBeam`, through the coordinate
oracle `coordDeg` (ra, dec ↦ decimal degrees). -/
def tileSum (coordDeg : PS → PS → ℚ × ℚ) (r : Request) :
    List Nat → Except PyErr (ℚ × ℚ)
  | [] => .ok (0, 0)
  | i :: rest =>
    match pyIndex r.targetRA i, pyIndex r.targetDec i with
    | .ok ra, .ok dec =>
      match tileSum coordDeg r rest with
      | .error e => .error e
      | .ok (sra, sdec) => .ok ((coordDeg ra dec).1 + sra, (coordDeg ra dec).2 + sdec)
    | _, _ => .error .indexError

/-- `Imaging._getTileBeam`: flat mean in decimal degrees of all pointings. -/
def getTileBeam (coordDeg : PS → PS → ℚ × ℚ) (r : Request) : Except PyErr (ℚ × ℚ) :=
  match tileSum coordDeg r (List.range r.nBeams) with
  | .error e => .error e
  | .ok (sra, sdec) => .ok (sra / (r.nBeams : ℚ), sdec / (r.nBeams : ℚ))

/-- The `packageName=` line of `writeHBATarget`. -/
def packageNameChunk (r : Request) : Except PyErr PS :=
  if r.nBeams = 1 then
    match pyIndex r.targetLabel 0 with
    | .error e => .error e
    | .ok l => .ok (S "packageName=" ++ l ++ S "\n")
  else
    match pyIndex r.targetLabel 0, pyIndex r.targetLabel 1 with
    | .ok l0, .ok l1 => .ok (S "packageName=" ++ l0 ++ S "-" ++ l1 ++ S "\n")
    | _, _ => .error .indexError

/-- The header chunks of a target block (everything from `BLOCK` to
`targetBeams=`). -/
def targetHeader (iso : ℚ → PS) (r : Request) (t : ℚ) (pn : PS) : List PS :=
  [S "BLOCK\n\n", pn,
   S "startTimeUTC=" ++ iso t ++ S "\n",
   S "targetDuration_s=" ++ intToStr (ratTrunc (r.targetObsLength * 3600)) ++ S "\n",
   S "clock=" ++ r.clockFreq ++ S "\n",
   S "instrumentFilter=" ++ r.rcumode ++ S "\n",
   S "nr_tasks=" ++ intToStr (Int.fdiv r.nSubBands 2) ++ S "\n",
   COMMON_STR r.rcumode ++ S "\n",
   S "Global_Subbands=" ++ r.subbands ++ S ";" ++ intToStr r.nSubBands ++ S "\n",
   S "targetBeams=\n"]

/-- `Imaging.writeHBATarget`: the list of chunks actually written (one per
`outFile.write`, truncated at the first raise) and either the escaping
error or the start time (in seconds) of the next block.  `iso` renders a
timestamp, `tileFmt` is the external
`SkyCoord.to_string('hmsdms', sep=':').replace(' ', ';')` formatter. -/
def writeHBATarget (coordDeg : PS → PS → ℚ × ℚ) (tileFmt : ℚ × ℚ → PS)
    (iso : ℚ → PS) (r : Request) (t : ℚ) : List PS × Except PyErr ℚ :=
  match packageNameChunk r with
  | .error e => ([S "BLOCK\n\n"], .error e)
  | .ok pn =>
    let hdr := targetHeader iso r t pn
    match (if 1 < r.nBeams then
             match getTileBeam coordDeg r with
             | .error e => Except.error e
             | .ok c => Except.ok [tileFmt c ++ S ";REF;256;1;;;F;31200\n"]
           else Except.ok []) with
    | .error e => (hdr, .error e)
    | .ok tile =>
      match targetIter r (List.range r.nBeams) with
      | (cs, .error e) => (hdr ++ tile ++ cs, .error e)
      | (cs, .ok _) =>
        (hdr ++ tile ++ cs ++ [S "\n"], .ok (t + r.targetObsLength * 3600 + 60))

/-- `Imaging.writeCalibrator`: chunks written plus the next block start
(11 minutes later). -/
def writeCalibrator (iso : ℚ → PS) (r : Request) (t : ℚ) (calibName : PS) :
    List PS × Except PyErr ℚ :=
  let pre := [S "BLOCK\n\n",
    S "packageName=" ++ calibName ++ S "\n",
    S "startTimeUTC=" ++ iso t ++ S "\n",
    S "targetDuration_s=600\n",
    S "clock=" ++ r.clockFreq ++ S "\n",
    S "instrumentFilter=" ++ r.rcumode ++ S "\n",
    S "nr_tasks=" ++ intToStr (Int.fdiv r.nSubBands 2) ++ S "\n",
    COMMON_STR r.rcumode ++ S "\n",
    S "Global_Subbands=" ++ r.subbands ++ S ";" ++ intToStr r.nSubBands ++ S "\n",
    S "targetBeams=\n"]
  match getCalPointing calibName with
  | none => (pre, .error .keyError)
  | some coord =>
    (pre ++ [coord ++ S ";" ++ calibName ++ S ";;;;;T;1800\n",
             S "Demix=4;1;64;10;;;F\n", S "\n"],
     .ok (t + 11 * 60))

/-- Spec-side token weight, following the spec's words: "single values count
1; a range `a..b` counts `b-a+1` inclusive", with `a`/`b` the first two
`..`-separated parts (defaulting to 0 where a parse is impossible; the
comparison theorem assumes a validated spec, under which parses succeed). -/
def specTokenCount (t : PS) : Int :=
  if (splitL (S "..") t).length = 1 then 1
  else
    (pyInt ((splitL (S "..") t).getD 1 [])).getD 0
      - (pyInt ((splitL (S "..") t).getD 0 [])).getD 0 + 1

/-- Spec-side subband count: the sum of the token weights. -/
def specSubbandSum (s : PS) : Int :=
  ((splitL [','] s).map specTokenCount).sum

/-- The candidate list of `findCalibrator`: valid calibrators whose
elevation strictly exceeds the threshold, in catalog order. -/
def candList (e : PS → PS → ℚ) (θ : ℚ) : List PS :=
  VALID_CALIBS.filter (fun c => decide (θ < calElev e c))

/-- `s` ends with the suffix `suf`. -/
def endsL (suf s : PS) : Prop := ∃ p, s = p ++ suf

/-- The distance list paired with `candList` by the calibrator scan. -/
def distList (e : PS → PS → ℚ) (θ tE : ℚ) : List ℚ :=
  (candList e θ).map (fun c => |calElev e c - tE|)

/-- A placeholder request (Python would not build one; used only as a
`getD` default). -/
def emptyReq : Request :=
  { projectName := []
    mainName := []
    startTime := ⟨1, 1, 1, 0, 0, 0⟩
    elevation := 0
    avg := []
    rcumode := []
    clockFreq := []
    subbands := []
    nSubBands := 0
    targetLabel := []
    targetRA := []
    targetDec := []
    demixLabel := []
    nBeams := 0
    targetObsLength := 0 }

/-- Constant coordinate oracle used in concrete runs. -/
def coord0 : PS → PS → ℚ × ℚ := fun _ _ => (0, 0)

/-- Constant tile-beam formatter used in concrete runs. -/
def tile0 : ℚ × ℚ → PS := fun _ => S "10:00:00;+20:00:00"

/-- Constant timestamp formatter used in concrete runs. -/
def iso0 : ℚ → PS := fun _ => S "2020-01-01 00:00:00"

/-- A single-target request with a given demix list (all other fields as a
validated request would hold them). -/
def reqDemix (dmx : List PS) : Request :=
  { projectName := S "LC0"
    mainName := S "M"
    startTime := ⟨2020, 1, 1, 0, 0, 0⟩
    elevation := 20
    avg := S "4,2"
    rcumode := S "170-230 MHz"
    clockFreq := S "160 MHz"
    subbands := S "100..109"
    nSubBands := 10
    targetLabel := [S "A"]
    targetRA := [S "10:00:00"]
    targetDec := [S "+20:00:00"]
    demixLabel := [dmx]
    nBeams := 1
    targetObsLength := 1 }

/-- A two-target request (tile-beam branch taken when writing). -/
def reqTwoBeam : Request :=
  { projectName := S "LC0"
    mainName := S "M"
    startTime := ⟨2020, 1, 1, 0, 0, 0⟩
    elevation := 20
    avg := S "4,2"
    rcumode := S "170-230 MHz"
    clockFreq := S "160 MHz"
    subbands := S "100..109"
    nSubBands := 10
    targetLabel := [S "A", S "B"]
    targetRA := [S "10:00:00", S "11:00:00"]
    targetDec := [S "+20:00:00", S "+30:00:00"]
    demixLabel := [[], []]
    nBeams := 2
    targetObsLength := 1 }

/-- Raw form input whose pointing line carries the invalid demix source
`Mars`; every construction-time check passes. -/
def gC3 : Gui :=
  { projNameT := S "LC0"
    mainNameT := S "M"
    dateT := S "2020-1-1-0-0-0"
    elevationT := S "20"
    avgT := S "4,2"
    freqModeStr := S "170-230 MHz"
    subbandT := S "100..110"
    pointT := S "A,10:00:00,+20:00:00,Mars"
    durationT := S "1" }

/-- The request built from `gC3`. -/
def reqC3 : Request := ((imagingInit gC3).toOption).getD emptyReq

/-- Raw form input whose pointing line has only two comma-separated
fields; every earlier construction-time check passes. -/
def gC5 : Gui :=
  { projNameT := S "LC0"
    mainNameT := S "M"
    dateT := S "2020-1-1-0-0-0"
    elevationT := S "20"
    avgT := S "4,2"
    freqModeStr := S "170-230 MHz"
    subbandT := S "100..110"
    pointT := S "A,10:00:00"
    durationT := S "1" }

/-- Calibrator-elevation oracle for concrete runs: only 3C295 (ra
`14:11:20.5`) is high in the sky. -/
def eW : PS → PS → ℚ := fun ra _ => if ra = S "14:11:20.5" then 40 else 10

/-- Calibrator-elevation oracle for concrete runs: everything at the
horizon. -/
def eLow : PS → PS → ℚ := fun _ _ => 0

/-! ### Lemmas about `argminQ` and list access -/

theorem argminQ_lt_length (l : List ℚ) (h : l ≠ []) : argminQ l < l.length := by
  induction l with
  | nil => exact absurd rfl h
  | cons x m ih =>
    cases m with
    | nil => simp [argminQ]
    | cons y rest =>
      simp only [argminQ]
      split
      · simp
      · have hlt := ih (by simp)
        simpa [Nat.succ_lt_succ_iff] using hlt

theorem argminQ_le (l : List ℚ) (j : Nat) (hj : j < l.length) :
    l.getD (argminQ l) 0 ≤ l.getD j 0 := by
  induction l generalizing j with
  | nil => simp at hj
  | cons x m ih =>
    cases m with
    | nil =>
      have hj0 : j = 0 := by
        have : j < 1 := by simpa using hj
        omega
      subst hj0
      simp [argminQ]
    | cons y rest =>
      simp only [argminQ]
      by_cases h : x ≤ (y :: rest).getD (argminQ (y :: rest)) 0
      · rw [if_pos h]
        cases j with
        | zero => simp
        | succ j' =>
          have hj' : j' < (y :: rest).length := by
            simpa [Nat.succ_lt_succ_iff] using hj
          have hle := ih j' hj'
          simpa using le_trans h hle
      · rw [if_neg h]
        have hx : (y :: rest).getD (argminQ (y :: rest)) 0 ≤ x := le_of_not_le h
        cases j with
        | zero => simpa using hx
        | succ j' =>
          have hj' : j' < (y :: rest).length := by
            simpa [Nat.succ_lt_succ_iff] using hj
          simpa using ih j' hj'

theorem argminQ_first (l : List ℚ) (j : Nat) (hj : j < argminQ l) :
    l.getD (argminQ l) 0 < l.getD j 0 := by
  induction l generalizing j with
  | nil => simp [argminQ] at hj
  | cons x m ih =>
    cases m with
    | nil => simp [argminQ] at hj
    | cons y rest =>
      simp only [argminQ] at hj ⊢
      by_cases h : x ≤ (y :: rest).getD (argminQ (y :: rest)) 0
      · rw [if_pos h] at hj
        exact absurd hj (Nat.not_lt_zero j)
      · rw [if_neg h] at hj ⊢
        have hx : (y :: rest).getD (argminQ (y :: rest)) 0 < x := lt_of_not_le h
        cases j with
        | zero => simpa using hx
        | succ j' =>
          have hj' : j' < argminQ (y :: rest) := Nat.lt_of_succ_lt_succ hj
          simpa using ih j' hj'

theorem get?_eq_some_getD {α : Type} (l : List α) (n : Nat) (d : α)
    (h : n < l.length) : l.get? n = some (l.getD n d) := by
  induction l generalizing n with
  | nil => simp at h
  | cons a t ih =>
    cases n with
    | zero => simp
    | succ n' =>
      have h' : n' < t.length := by simpa [Nat.succ_lt_succ_iff] using h
      simpa using ih n' h'

theorem getD_map_dist (f : PS → ℚ) (l : List PS) (j : Nat) (hj : j < l.length) :
    (l.map f).getD j 0 = f (l.getD j []) := by
  induction l generalizing j with
  | nil => simp at hj
  | cons a t ih =>
    cases j with
    | zero => simp
    | succ j' =>
      have hj' : j' < t.length := by simpa [Nat.succ_lt_succ_iff] using hj
      simpa using ih j' hj'

/-! ### The calibrator scan as a filter -/

theorem scanCalibs_eq (e : PS → PS → ℚ) (θ tE : ℚ) (L : List PS)
    (h : ∀ c ∈ L, (getCalPointing c).isSome) :
    scanCalibs e θ tE L =
      .ok (L.filter (fun c => decide (θ < calElev e c)),
           (L.filter (fun c => decide (θ < calElev e c))).map
             (fun c => |calElev e c - tE|)) := by
  induction L with
  | nil => rfl
  | cons c rest ih =>
    have hc : (getCalPointing c).isSome := h c (by simp)
    obtain ⟨coord, hcoord⟩ := Option.isSome_iff_exists.mp hc
    have hrest := ih (fun x hx => h x (List.mem_cons_of_mem _ hx))
    simp only [scanCalibs, hcoord, hrest]
    by_cases hp : θ < calElev e c
    · rw [if_pos hp]
      simp [List.filter_cons, hp]
    · rw [if_neg hp]
      simp [List.filter_cons, hp]

theorem scanCalibs_valid (e : PS → PS → ℚ) (θ tE : ℚ) :
    scanCalibs e θ tE VALID_CALIBS = .ok (candList e θ, distList e θ tE) := by
  rw [scanCalibs_eq e θ tE VALID_CALIBS (by decide)]
  rfl

theorem findCalibrator_reduce (e : PS → PS → ℚ) (ras decs : List PS) (θ : ℚ)
    (ra0 dec0 : PS) (h1 : ras.get? 0 = some ra0) (h2 : decs.get? 0 = some dec0) :
    findCalibrator e ras decs θ =
      (if (candList e θ).isEmpty then .error .valueError
       else
         match (candList e θ).get? (argminQ (distList e θ (e ra0 dec0))) with
         | some nm => .ok nm
         | none => .error .indexError) := by
  cases ras with
  | nil => simp at h1
  | cons a ras' =>
    cases decs with
    | nil => simp at h2
    | cons b decs' =>
      have ha : a = ra0 := by simpa using h1
      have hb : b = dec0 := by simpa using h2
      subst ha
      subst hb
      simp only [findCalibrator, List.get?, scanCalibs_valid]

/-! ### Claim C2 -/

/-- C2 is false as stated: at an observation time at which every valid
calibrator sits at elevation 0 (below the threshold 10), `findCalibrator`
fails with the escaping numpy `ValueError` (argmin of an empty sequence),
not with a `NoCalibratorAvailable` error kind — no such raise exists in the
source. -/
theorem findCalibrator_noCandidate_counterexample :
    findCalibrator eLow [S "10:00:00"] [S "+20:00:00"] 10 = .error .valueError ∧
    PyErr.valueError ≠ PyErr.noCalibratorAvailable := by decide

/-- C2 (amended): for every elevation oracle and threshold under which no
valid calibrator's elevation strictly exceeds the threshold,
`findCalibrator` fails with the escaping `ValueError` raised by `np.argmin`
on the empty candidate list (not with a dedicated error kind). -/
theorem findCalibrator_noCandidate_valueError (e : PS → PS → ℚ)
    (ras decs : List PS) (θ : ℚ) (ra0 dec0 : PS)
    (h1 : ras.get? 0 = some ra0) (h2 : decs.get? 0 = some dec0)
    (h3 : ∀ c ∈ VALID_CALIBS, calElev e c ≤ θ) :
    findCalibrator e ras decs θ = .error .valueError := by
  have hfil : candList e θ = [] := by
    unfold candList
    refine List.filter_eq_nil_iff.mpr ?_
    intro c hc
    simpa using not_lt.mpr (h3 c hc)
  rw [findCalibrator_reduce e ras decs θ ra0 dec0 h1 h2, hfil]
  rfl

/-- C2 witness: a concrete oracle with every calibrator at the horizon. -/
theorem findCalibrator_noCandidate_valueError_witness :
    (([S "10:00:00"] : List PS).get? 0 = some (S "10:00:00")) ∧
    (∀ c ∈ VALID_CALIBS, calElev eLow c ≤ 10) ∧
    findCalibrator eLow [S "10:00:00"] [S "+20:00:00"] 10 = .error .valueError :=
  ⟨by decide, by decide,
    findCalibrator_noCandidate_valueError eLow [S "10:00:00"] [S "+20:00:00"] 10
      (S "10:00:00") (S "+20:00:00") (by decide) (by decide) (by decide)⟩

/-! ### Claim C4 -/

/-- C4: whenever at least one of the 5 valid calibrators has elevation
strictly above the threshold, `findCalibrator` returns a candidate of the
(catalog-ordered) candidate list `candList` that minimises
`|calibratorElevation - targetElevation|`, taking the first minimal-distance
candidate (every earlier candidate has strictly larger distance), where the
target elevation is computed from the first target pointing only (the result
is unchanged under any other targets sharing the same first pointing). -/
theorem findCalibrator_picks_first_closest (e : PS → PS → ℚ)
    (ras decs : List PS) (θ : ℚ) (ra0 dec0 : PS)
    (h1 : ras.get? 0 = some ra0) (h2 : decs.get? 0 = some dec0)
    (h3 : ∃ c ∈ VALID_CALIBS, θ < calElev e c) :
    ∃ i : Nat, i < (candList e θ).length ∧
      findCalibrator e ras decs θ = .ok ((candList e θ).getD i []) ∧
      (∀ j, j < (candList e θ).length →
        |calElev e ((candList e θ).getD i []) - e ra0 dec0| ≤
          |calElev e ((candList e θ).getD j []) - e ra0 dec0|) ∧
      (∀ j, j < i →
        |calElev e ((candList e θ).getD i []) - e ra0 dec0| <
          |calElev e ((candList e θ).getD j []) - e ra0 dec0|) ∧
      (∀ ras' decs', ras'.get? 0 = some ra0 → decs'.get? 0 = some dec0 →
        findCalibrator e ras' decs' θ = findCalibrator e ras decs θ) := by
  obtain ⟨c0, hc0, hc0p⟩ := h3
  have hNne : candList e θ ≠ [] := by
    intro hnil
    have hmem : c0 ∈ candList e θ :=
      List.mem_filter.mpr ⟨hc0, by simpa using hc0p⟩
    rw [hnil] at hmem
    simp at hmem
  have hDlen : (distList e θ (e ra0 dec0)).length = (candList e θ).length := by
    simp [distList]
  have hDne : distList e θ (e ra0 dec0) ≠ [] := by
    intro h0
    exact hNne (List.map_eq_nil_iff.mp h0)
  have hi : argminQ (distList e θ (e ra0 dec0)) < (candList e θ).length := by
    have := argminQ_lt_length _ hDne
    omega
  have hE : ¬ ((candList e θ).isEmpty = true) := by
    intro h0
    exact hNne (List.isEmpty_iff.mp h0)
  refine ⟨argminQ (distList e θ (e ra0 dec0)), hi, ?_, ?_, ?_, ?_⟩
  · rw [findCalibrator_reduce e ras decs θ ra0 dec0 h1 h2, if_neg hE,
      get?_eq_some_getD _ _ [] hi]
  · intro j hj
    have hle := argminQ_le (distList e θ (e ra0 dec0)) j (by omega)
    have hi2 : argminQ ((candList e θ).map (fun c => |calElev e c - e ra0 dec0|)) <
        (candList e θ).length := by simpa only [distList] using hi
    simp only [distList] at hle
    rw [getD_map_dist _ _ _ hi2, getD_map_dist _ _ _ hj] at hle
    simpa only [distList] using hle
  · intro j hj
    have hlt := argminQ_first (distList e θ (e ra0 dec0)) j hj
    have hjN : j < (candList e θ).length := by omega
    have hi2 : argminQ ((candList e θ).map (fun c => |calElev e c - e ra0 dec0|)) <
        (candList e θ).length := by simpa only [distList] using hi
    simp only [distList] at hlt
    rw [getD_map_dist _ _ _ hi2, getD_map_dist _ _ _ hjN] at hlt
    simpa only [distList] using hlt
  · intro ras' decs' h1' h2'
    rw [findCalibrator_reduce e ras' decs' θ ra0 dec0 h1' h2',
      findCalibrator_reduce e ras decs θ ra0 dec0 h1 h2]

/-- C4 witness: an oracle under which only 3C295 clears the threshold. -/
theorem findCalibrator_picks_first_closest_witness :
    (([S "10:00:00"] : List PS).get? 0 = some (S "10:00:00")) ∧
    (∃ c ∈ VALID_CALIBS, (20 : ℚ) < calElev eW c) ∧
    (∃ i : Nat, i < (candList eW 20).length ∧
      findCalibrator eW [S "10:00:00"] [S "+20:00:00"] 20 =
        .ok ((candList eW 20).getD i []) ∧
      (∀ j, j < (candList eW 20).length →
        |calElev eW ((candList eW 20).getD i []) - eW (S "10:00:00") (S "+20:00:00")| ≤
          |calElev eW ((candList eW 20).getD j []) - eW (S "10:00:00") (S "+20:00:00")|) ∧
      (∀ j, j < i →
        |calElev eW ((candList eW 20).getD i []) - eW (S "10:00:00") (S "+20:00:00")| <
          |calElev eW ((candList eW 20).getD j []) - eW (S "10:00:00") (S "+20:00:00")|) ∧
      (∀ ras' decs', ras'.get? 0 = some (S "10:00:00") →
        decs'.get? 0 = some (S "+20:00:00") →
        findCalibrator eW ras' decs' 20 =
          findCalibrator eW [S "10:00:00"] [S "+20:00:00"] 20)) :=
  ⟨by decide, by decide,
    findCalibrator_picks_first_closest eW [S "10:00:00"] [S "+20:00:00"] 20
      (S "10:00:00") (S "+20:00:00") (by decide) (by decide) (by decide)⟩

/-! ### Claim C5 -/

theorem parseLines_short_line (lines : List PS)
    (h : ∃ l0 ∈ lines, (splitL [','] l0).length < 3) :
    parseLines lines = .error .indexError := by
  induction lines with
  | nil => simp at h
  | cons line rest ih =>
    obtain ⟨l0, hl0, hshort⟩ := h
    by_cases hcur : (splitL [','] line).length < 3
    · have h2 : (splitL [','] line).get? 2 = none := by
        rw [List.get?_eq_none]
        omega
      simp only [parseLines]
      rcases h0 : (splitL [','] line).get? 0 with _ | a
      · rfl
      · rcases h1 : (splitL [','] line).get? 1 with _ | b
        · rfl
        · rw [h2]
    · have h0 := get?_eq_some_getD (splitL [','] line) 0 [] (by omega)
      have h1 := get?_eq_some_getD (splitL [','] line) 1 [] (by omega)
      have h2 := get?_eq_some_getD (splitL [','] line) 2 [] (by omega)
      have hrest : parseLines rest = .error .indexError := by
        apply ih
        rcases List.mem_cons.mp hl0 with hEq | hMem
        · subst hEq
          exact absurd hshort hcur
        · exact ⟨l0, hMem, hshort⟩
      simp only [parseLines]
      rw [h0, h1, h2, hrest]

/-- C5 (amended): a pointing text containing a line with fewer than 3
comma-separated fields makes the pointing parse fail with an uncaught
`IndexError` — not with the `InvalidSubband` kind, because the `except
ValueError` clause in `__init__` does not catch an `IndexError`. -/
theorem parsePointString_short_line (s : PS)
    (h : ∃ l0 ∈ splitlinesL s, (splitL [','] l0).length < 3) :
    parsePointString s = .error .indexError :=
  parseLines_short_line _ h

/-- C5 witness: the pipeline input `gC5` (pointing line `A,10:00:00`). -/
theorem parsePointString_short_line_witness :
    parsePointString (S "A,10:00:00") = .error .indexError ∧
    imagingInit gC5 = .error .indexError :=
  ⟨parsePointString_short_line (S "A,10:00:00")
      ⟨S "A,10:00:00", by decide, by decide⟩,
   by decide⟩

/-- C5 is false as stated: the construction on `gC5` (whose pointing line
has two fields) fails with `IndexError`, which is not the `InvalidSubband`
kind: list indexing raises `IndexError` and the wrapper catches only
`ValueError`. -/
theorem short_pointing_counterexample :
    imagingInit gC5 = .error .indexError ∧
    PyErr.indexError ≠ PyErr.invalidSubband := by decide

/-! ### Claim C6 -/

/-- C6 is false in its rendering part: the accepted demix list `['CasA']`
is rendered in the emitted Demix line as `[CasA]` (brackets kept), not as
the bare text `CasA`. -/
theorem demix_render_counterexample :
    (writeHBATarget coord0 tile0 iso0 (reqDemix [S "CasA"]) 0).2.isOk ∧
    S "Demix=4;2;64;10;;[CasA];F\n" ∈
      (writeHBATarget coord0 tile0 iso0 (reqDemix [S "CasA"]) 0).1 ∧
    S "Demix=4;2;64;10;;CasA;F\n" ∉
      (writeHBATarget coord0 tile0 iso0 (reqDemix [S "CasA"]) 0).1 := by decide

/-- C6 (amended): a 3-entry demix list raises TooManyATeam, `['Mars']`
raises InvalidATeam, and `['CasA']` is accepted and rendered in the Demix
line as `[CasA]` (the Python list repr with quotes and spaces stripped,
brackets retained). -/
theorem demix_validation_amended :
    (writeHBATarget coord0 tile0 iso0 (reqDemix [S "CasA", S "CygA", S "TauA"]) 0).2
      = .error .tooManyAteam ∧
    (writeHBATarget coord0 tile0 iso0 (reqDemix [S "Mars"]) 0).2
      = .error .invalidAteam ∧
    (writeHBATarget coord0 tile0 iso0 (reqDemix [S "CasA"]) 0).2.isOk ∧
    S "Demix=4;2;64;10;;[CasA];F\n" ∈
      (writeHBATarget coord0 tile0 iso0 (reqDemix [S "CasA"]) 0).1 := by decide

/-! ### Claim C3 -/

/-- C3 (amended): construction-time validation happens before writing, but
the per-target demix checks run inside `writeHBATarget`; whenever
`writeHBATarget` aborts with an error, the chunks already written are
non-empty and begin with the `BLOCK` header — the output then contains a
partial block. -/
theorem writeHBATarget_error_partial (coordDeg : PS → PS → ℚ × ℚ)
    (tileFmt : ℚ × ℚ → PS) (iso : ℚ → PS) (r : Request) (t : ℚ)
    (cs : List PS) (err : PyErr)
    (h : writeHBATarget coordDeg tileFmt iso r t = (cs, .error err)) :
    cs ≠ [] ∧ cs.head? = some (S "BLOCK\n\n") := by
  unfold writeHBATarget at h
  split at h
  · simp only [Prod.mk.injEq] at h
    obtain ⟨hcs, -⟩ := h
    subst hcs
    exact ⟨by simp, by simp⟩
  · split at h
    · simp only [Prod.mk.injEq] at h
      obtain ⟨hcs, -⟩ := h
      subst hcs
      exact ⟨by simp [targetHeader], by simp [targetHeader]⟩
    · split at h
      · simp only [Prod.mk.injEq] at h
        obtain ⟨hcs, -⟩ := h
        subst hcs
        exact ⟨by simp [targetHeader], by simp [targetHeader]⟩
      · simp only [Prod.mk.injEq] at h
        obtain ⟨-, hbad⟩ := h
        exact Except.noConfusion hbad

/-- C3 witness: on the request built from `gC3` the target writer errors
with InvalidATeam and a partial block is on the output. -/
theorem writeHBATarget_error_partial_witness :
    (writeHBATarget coord0 tile0 iso0 reqC3 0).1 ≠ [] ∧
    ((writeHBATarget coord0 tile0 iso0 reqC3 0).1).head? = some (S "BLOCK\n\n") :=
  writeHBATarget_error_partial coord0 tile0 iso0 reqC3 0 _ _
    (Prod.ext_iff.mpr ⟨rfl, by decide⟩)

/-- C3 is false as stated: `gC3` passes every construction-time check
(`imagingInit` succeeds), yet generation aborts during target-block writing
with InvalidATeam after block chunks were already emitted — a validation
failure that is neither raised at construction time nor free of partial
output. -/
theorem construction_demix_counterexample :
    imagingInit gC3 = .ok reqC3 ∧
    (writeHBATarget coord0 tile0 iso0 reqC3 0).2 = .error .invalidAteam ∧
    (writeHBATarget coord0 tile0 iso0 reqC3 0).1 ≠ [] := by decide

/-! ### Claim C9 -/

/-- C9 is false as stated: the token `100..200..300` splits on `..` into
three integer-parseable parts — not exactly two — yet validation accepts it
(the source reads only `split('..')[0]` and `[1]`). -/
theorem range_token_extra_parts_counterexample :
    (splitL (S "..") (S "100..200..300")).length = 3 ∧
    (pyInt (S "100")).isSome ∧ (pyInt (S "200")).isSome ∧
    (pyInt (S "300")).isSome ∧
    validateSubBands (S "100..200..300") (S "170-230 MHz") = .ok () := by decide

/-- C9 (amended): for a spec whose first token is a range token (contains
`..`): if either of the first two `..`-separated parts fails to parse as an
integer, validation fails with InvalidSubBand (parts beyond the second are
ignored); if both parse and `a > b`, validation fails with
InvalidSubBandOrder. -/
theorem range_token_validation (s m tok : PS)
    (htok : (splitL [','] s).get? 0 = some tok)
    (hr : (splitL (S "..") tok).length ≠ 1) :
    ((pyInt ((splitL (S "..") tok).getD 0 []) = none ∨
      pyInt ((splitL (S "..") tok).getD 1 []) = none) →
      validateSubBands s m = .error .invalidSubBand) ∧
    (∀ a b : Int, pyInt ((splitL (S "..") tok).getD 0 []) = some a →
      pyInt ((splitL (S "..") tok).getD 1 []) = some b → b < a →
      validateSubBands s m = .error .invalidSubBandOrder) := by
  have hex : ∃ rest', splitL [','] s = tok :: rest' := by
    cases hs : splitL [','] s with
    | nil => rw [hs] at htok; simp at htok
    | cons a t =>
      rw [hs] at htok
      simp only [List.get?] at htok
      exact ⟨t, by rw [Option.some.injEq] at htok; rw [htok]⟩
  obtain ⟨rest', hsplit⟩ := hex
  constructor
  · intro hnone
    unfold validateSubBands
    rw [hsplit]
    simp only [validateTokens]
    rw [if_neg hr]
    rcases h0 : pyInt ((splitL (S "..") tok).getD 0 []) with _ | a
    · rfl
    · rcases h1 : pyInt ((splitL (S "..") tok).getD 1 []) with _ | b
      · rfl
      · rcases hnone with hn | hn
        · rw [h0] at hn; exact Option.noConfusion hn
        · rw [h1] at hn; exact Option.noConfusion hn
  · intro a b ha hb hba
    unfold validateSubBands
    rw [hsplit]
    simp only [validateTokens]
    rw [if_neg hr]
    simp only [ha, hb]
    rw [if_pos hba]

/-- C9 witness: a malformed first part and a reversed range. -/
theorem range_token_validation_witness :
    validateSubBands (S "x..60") (S "170-230 MHz") = .error .invalidSubBand ∧
    validateSubBands (S "62..60") (S "170-230 MHz") = .error .invalidSubBandOrder :=
  ⟨(range_token_validation (S "x..60") (S "170-230 MHz") (S "x..60")
      (by decide) (by decide)).1 (Or.inl (by decide)),
   (range_token_validation (S "62..60") (S "170-230 MHz") (S "62..60")
      (by decide) (by decide)).2 62 60 (by decide) (by decide) (by decide)⟩

/-! ### Claim C7 -/

theorem countTokens_eq_spec (m : PS) (toks : List PS)
    (hv : validateTokens m toks = .ok ()) :
    countTokens toks = .ok ((toks.map specTokenCount).sum) := by
  induction toks with
  | nil => simp [countTokens]
  | cons item rest ih =>
    by_cases hr : (splitL (S "..") item).length = 1
    · simp only [validateTokens] at hv
      rw [if_pos hr] at hv
      rcases hp : pyInt item with _ | v
      · simp only [hp] at hv
        exact Except.noConfusion hv
      · simp only [hp] at hv
        rcases hcb : checkBounds m v v with e | u
        · simp only [hcb] at hv
          exact Except.noConfusion hv
        · simp only [hcb] at hv
          have hrest := ih hv
          simp only [countTokens]
          rw [if_pos hr]
          simp only [hrest, List.map_cons, List.sum_cons, specTokenCount,
            if_pos hr, Except.ok.injEq]
          omega
    · simp only [validateTokens] at hv
      rw [if_neg hr] at hv
      rcases hpa : pyInt ((splitL (S "..") item).getD 0 []) with _ | a
      · simp only [hpa] at hv
        exact Except.noConfusion hv
      · rcases hpb : pyInt ((splitL (S "..") item).getD 1 []) with _ | b
        · simp only [hpa, hpb] at hv
          exact Except.noConfusion hv
        · simp only [hpa, hpb] at hv
          by_cases hba : b < a
          · rw [if_pos hba] at hv
            exact Except.noConfusion hv
          · rw [if_neg hba] at hv
            rcases hcb : checkBounds m a b with e | u
            · simp only [hcb] at hv
              exact Except.noConfusion hv
            · simp only [hcb] at hv
              have hrest := ih hv
              simp only [countTokens]
              rw [if_neg hr]
              simp only [hpa, hpb, hrest, List.map_cons, List.sum_cons,
                specTokenCount, if_neg hr, Option.getD_some, Except.ok.injEq]
              omega

/-- C7: for every subband spec accepted by validation, the counted number
of subbands equals the spec's formula: the sum over comma-separated tokens
of 1 for each single token and `b - a + 1` for each range token `a..b`. -/
theorem countSubBands_eq_spec (s m : PS)
    (hv : validateSubBands s m = .ok ()) :
    countSubBands s = .ok (specSubbandSum s) :=
  countTokens_eq_spec m (splitL [','] s) hv

/-- C7 witness: the spec `54,60..62` in the default band. -/
theorem countSubBands_eq_spec_witness :
    validateSubBands (S "54,60..62") (S "110-190 MHz") = .ok () ∧
    countSubBands (S "54,60..62") = .ok (specSubbandSum (S "54,60..62")) :=
  ⟨by decide, countSubBands_eq_spec (S "54,60..62") (S "110-190 MHz") (by decide)⟩

/-! ### Claim C8 -/

theorem checkBounds_default (m : PS) (h1 : m ≠ S "30-90 MHz")
    (h2 : m ≠ S "170-230 MHz") (a b : Int) :
    checkBounds m a b =
      (if a < 51 ∨ 461 < b then .error .outOfBoundsSubBand else .ok ()) := by
  unfold checkBounds
  rw [if_neg h1, if_neg h2]

theorem validateSubBands_single (m item : PS) (v : Int)
    (hc : splitL [','] item = [item])
    (hnr : (splitL (S "..") item).length = 1)
    (hp : pyInt item = some v) :
    validateSubBands item m = checkBounds m v v := by
  unfold validateSubBands
  rw [hc]
  simp only [validateTokens]
  rw [if_pos hnr]
  simp only [hp]
  cases hcb : checkBounds m v v with
  | error e => simp only [hcb]
  | ok u => cases u; simp only [hcb]

theorem validateSubBands_range (m item : PS) (a b : Int)
    (hc : splitL [','] item = [item])
    (hnr : (splitL (S "..") item).length ≠ 1)
    (hpa : pyInt ((splitL (S "..") item).getD 0 []) = some a)
    (hpb : pyInt ((splitL (S "..") item).getD 1 []) = some b)
    (hab : ¬ b < a) :
    validateSubBands item m = checkBounds m a b := by
  unfold validateSubBands
  rw [hc]
  simp only [validateTokens]
  rw [if_neg hnr]
  simp only [hpa, hpb]
  rw [if_neg hab]
  cases hcb : checkBounds m a b with
  | error e => simp only [hcb]
  | ok u => cases u; simp only [hcb]

/-- C8: for every frequency mode — `30-90 MHz` (bounds 154..461),
`170-230 MHz` (64..448) and any other mode string (51..461) — a single
subband or a range endpoint at the exact bound is accepted, while the value
just below the minimum or just above the maximum is rejected with
OutOfBoundsSubBand. -/
theorem subband_bounds_boundary :
    (validateSubBands (S "154") (S "30-90 MHz") = .ok () ∧
     validateSubBands (S "461") (S "30-90 MHz") = .ok () ∧
     validateSubBands (S "153") (S "30-90 MHz") = .error .outOfBoundsSubBand ∧
     validateSubBands (S "462") (S "30-90 MHz") = .error .outOfBoundsSubBand ∧
     validateSubBands (S "154..461") (S "30-90 MHz") = .ok () ∧
     validateSubBands (S "153..461") (S "30-90 MHz") = .error .outOfBoundsSubBand ∧
     validateSubBands (S "154..462") (S "30-90 MHz") = .error .outOfBoundsSubBand) ∧
    (validateSubBands (S "64") (S "170-230 MHz") = .ok () ∧
     validateSubBands (S "448") (S "170-230 MHz") = .ok () ∧
     validateSubBands (S "63") (S "170-230 MHz") = .error .outOfBoundsSubBand ∧
     validateSubBands (S "449") (S "170-230 MHz") = .error .outOfBoundsSubBand ∧
     validateSubBands (S "64..448") (S "170-230 MHz") = .ok () ∧
     validateSubBands (S "63..448") (S "170-230 MHz") = .error .outOfBoundsSubBand ∧
     validateSubBands (S "64..449") (S "170-230 MHz") = .error .outOfBoundsSubBand) ∧
    (∀ m : PS, m ≠ S "30-90 MHz" → m ≠ S "170-230 MHz" →
      validateSubBands (S "51") m = .ok () ∧
      validateSubBands (S "461") m = .ok () ∧
      validateSubBands (S "50") m = .error .outOfBoundsSubBand ∧
      validateSubBands (S "462") m = .error .outOfBoundsSubBand ∧
      validateSubBands (S "51..461") m = .ok () ∧
      validateSubBands (S "50..461") m = .error .outOfBoundsSubBand ∧
      validateSubBands (S "51..462") m = .error .outOfBoundsSubBand) := by
  refine ⟨by decide, by decide, ?_⟩
  intro m h1 h2
  refine ⟨?_, ?_, ?_, ?_, ?_, ?_, ?_⟩
  · rw [validateSubBands_single m (S "51") 51 (by decide) (by decide) (by decide),
      checkBounds_default m h1 h2, if_neg (by omega)]
  · rw [validateSubBands_single m (S "461") 461 (by decide) (by decide) (by decide),
      checkBounds_default m h1 h2, if_neg (by omega)]
  · rw [validateSubBands_single m (S "50") 50 (by decide) (by decide) (by decide),
      checkBounds_default m h1 h2, if_pos (by omega)]
  · rw [validateSubBands_single m (S "462") 462 (by decide) (by decide) (by decide),
      checkBounds_default m h1 h2, if_pos (by omega)]
  · rw [validateSubBands_range m (S "51..461") 51 461 (by decide) (by decide)
      (by decide) (by decide) (by omega), checkBounds_default m h1 h2,
      if_neg (by omega)]
  · rw [validateSubBands_range m (S "50..461") 50 461 (by decide) (by decide)
      (by decide) (by decide) (by omega), checkBounds_default m h1 h2,
      if_pos (by omega)]
  · rw [validateSubBands_range m (S "51..462") 51 462 (by decide) (by decide)
      (by decide) (by decide) (by omega), checkBounds_default m h1 h2,
      if_pos (by omega)]

/-- C8 witness: the default branch instantiated at the remaining GUI mode
string `110-190 MHz`. -/
theorem subband_bounds_boundary_witness :
    validateSubBands (S "51") (S "110-190 MHz") = .ok () ∧
    validateSubBands (S "461") (S "110-190 MHz") = .ok () ∧
    validateSubBands (S "50") (S "110-190 MHz") = .error .outOfBoundsSubBand ∧
    validateSubBands (S "462") (S "110-190 MHz") = .error .outOfBoundsSubBand ∧
    validateSubBands (S "51..461") (S "110-190 MHz") = .ok () ∧
    validateSubBands (S "50..461") (S "110-190 MHz") = .error .outOfBoundsSubBand ∧
    validateSubBands (S "51..462") (S "110-190 MHz") = .error .outOfBoundsSubBand :=
  subband_bounds_boundary.2.2 (S "110-190 MHz") (by decide) (by decide)

/-! ### Claim C1 -/

theorem countTokens_nonneg (m : PS) (toks : List PS) :
    validateTokens m toks = .ok () → ∀ n : Int, countTokens toks = .ok n → 0 ≤ n := by
  induction toks with
  | nil =>
    intro _ n hc
    simp only [countTokens, Except.ok.injEq] at hc
    omega
  | cons item rest ih =>
    intro hv n hc
    by_cases hr : (splitL (S "..") item).length = 1
    · simp only [validateTokens] at hv
      rw [if_pos hr] at hv
      rcases hp : pyInt item with _ | v
      · simp only [hp] at hv
        exact Except.noConfusion hv
      · simp only [hp] at hv
        rcases hcb : checkBounds m v v with e | u
        · simp only [hcb] at hv
          exact Except.noConfusion hv
        · simp only [hcb] at hv
          simp only [countTokens] at hc
          rw [if_pos hr] at hc
          rcases hcr : countTokens rest with e | c
          · simp only [hcr] at hc
            exact Except.noConfusion hc
          · simp only [hcr, Except.ok.injEq] at hc
            have := ih hv c hcr
            omega
    · simp only [validateTokens] at hv
      rw [if_neg hr] at hv
      rcases hpa : pyInt ((splitL (S "..") item).getD 0 []) with _ | a
      · simp only [hpa] at hv
        exact Except.noConfusion hv
      · rcases hpb : pyInt ((splitL (S "..") item).getD 1 []) with _ | b
        · simp only [hpa, hpb] at hv
          exact Except.noConfusion hv
        · simp only [hpa, hpb] at hv
          by_cases hba : b < a
          · rw [if_pos hba] at hv
            exact Except.noConfusion hv
          · rw [if_neg hba] at hv
            rcases hcb : checkBounds m a b with e | u
            · simp only [hcb] at hv
              exact Except.noConfusion hv
            · simp only [hcb] at hv
              simp only [countTokens] at hc
              rw [if_neg hr] at hc
              simp only [hpa, hpb] at hc
              rcases hcr : countTokens rest with e | c
              · simp only [hcr] at hc
                exact Except.noConfusion hc
              · simp only [hcr, Except.ok.injEq] at hc
                have := ih hv c hcr
                omega

theorem imagingInit_fields (g : Gui) (r : Request) (h : imagingInit g = .ok r) :
    validateSubBands r.subbands r.rcumode = .ok () ∧
    countSubBands r.subbands = .ok r.nSubBands ∧
    r.targetLabel.length = r.nBeams := by
  unfold imagingInit at h
  by_cases c1 : 20 < g.mainNameT.length
  · rw [if_pos c1] at h
    exact Except.noConfusion h
  · rw [if_neg c1] at h
    by_cases c2 : g.mainNameT = []
    · rw [if_pos c2] at h
      exact Except.noConfusion h
    · rw [if_neg c2] at h
      rcases cdt : parseDateTime g.dateT with _ | dt
      · simp only [cdt] at h
        exact Except.noConfusion h
      · simp only [cdt] at h
        rcases cel : pyFloat g.elevationT with _ | elev
        · simp only [cel] at h
          exact Except.noConfusion h
        · simp only [cel] at h
          by_cases c3 : elev < 0 ∨ 90 < elev
          · rw [if_pos c3] at h
            exact Except.noConfusion h
          · rw [if_neg c3] at h
            by_cases c4 : (splitL [','] g.avgT).length ≠ 2
            · rw [if_pos c4] at h
              exact Except.noConfusion h
            · rw [if_neg c4] at h
              by_cases c5 : (pyFloat ((splitL [','] g.avgT).getD 0 [])).isNone
                  ∨ (pyFloat ((splitL [','] g.avgT).getD 1 [])).isNone
              · rw [if_pos c5] at h
                exact Except.noConfusion h
              · rw [if_neg c5] at h
                rcases cv : validateSubBands g.subbandT g.freqModeStr with e | u
                · simp only [cv] at h
                  exact Except.noConfusion h
                · simp only [cv] at h
                  cases u
                  rcases cc : countSubBands g.subbandT with e | nSub
                  · simp only [cc] at h
                    exact Except.noConfusion h
                  · simp only [cc] at h
                    rcases cp : parsePointString g.pointT with e | quad
                    · simp only [cp] at h
                      cases e <;> simp only at h <;> exact Except.noConfusion h
                    · obtain ⟨lbls, ras, decs, dmx⟩ := quad
                      simp only [cp] at h
                      by_cases c6 : 488 < (lbls.length : Int) * nSub
                      · rw [if_pos c6] at h
                        exact Except.noConfusion h
                      · rw [if_neg c6] at h
                        rcases cd : pyFloat g.durationT with _ | dur
                        · simp only [cd] at h
                          exact Except.noConfusion h
                        · simp only [cd] at h
                          by_cases c7 : dur < 0
                          · rw [if_pos c7] at h
                            exact Except.noConfusion h
                          · rw [if_neg c7] at h
                            simp only [Except.ok.injEq] at h
                            subst h
                            exact ⟨cv, cc, rfl⟩

theorem intToStr_fdiv_two (n : Int) (hn : 0 ≤ n) :
    intToStr (Int.fdiv n 2) = natToDigits (n.toNat / 2) := by
  have h1 : Int.fdiv n 2 = ((n.toNat / 2 : Nat) : Int) := by
    rw [Int.fdiv_eq_ediv _ (by omega)]
    omega
  rw [h1]
  unfold intToStr
  rw [if_neg (by omega), Int.toNat_natCast]

theorem packageNameChunk_ok (r : Request) (hb : 1 ≤ r.nBeams)
    (hl : r.targetLabel.length = r.nBeams) :
    ∃ pn, packageNameChunk r = .ok pn := by
  unfold packageNameChunk
  by_cases h1 : r.nBeams = 1
  · rw [if_pos h1]
    unfold pyIndex
    rw [get?_eq_some_getD r.targetLabel 0 [] (by omega)]
    exact ⟨_, rfl⟩
  · rw [if_neg h1]
    unfold pyIndex
    rw [get?_eq_some_getD r.targetLabel 0 [] (by omega),
      get?_eq_some_getD r.targetLabel 1 [] (by omega)]
    exact ⟨_, rfl⟩

theorem writeHBATarget_hdr_mem (coordDeg : PS → PS → ℚ × ℚ)
    (tileFmt : ℚ × ℚ → PS) (iso : ℚ → PS) (r : Request) (t : ℚ) (pn c : PS)
    (hpn : packageNameChunk r = .ok pn)
    (hc : c ∈ targetHeader iso r t pn) :
    c ∈ (writeHBATarget coordDeg tileFmt iso r t).1 := by
  simp only [writeHBATarget, hpn]
  split
  · exact hc
  · split
    · exact List.mem_append_left _ (List.mem_append_left _ hc)
    · exact List.mem_append_left _
        (List.mem_append_left _ (List.mem_append_left _ hc))

/-- C1: for every request built by the validated construction (with at
least one beam, so that a target block can be written at all), there is a
natural number `k` with `nSubBands = k`, and the `nr_tasks` line written in
the calibrator block and in the target block is exactly the decimal
rendering of `k / 2` — natural floor division — matching
`floor(nSubBands/2)` (Python 2 `int/int` is floor division). -/
theorem nr_tasks_floor_div (g : Gui) (r : Request)
    (coordDeg : PS → PS → ℚ × ℚ) (tileFmt : ℚ × ℚ → PS) (iso : ℚ → PS)
    (t t' : ℚ) (cal : PS)
    (h : imagingInit g = .ok r) (hb : 1 ≤ r.nBeams) :
    ∃ k : Nat, r.nSubBands = (k : Int) ∧
      (S "nr_tasks=" ++ natToDigits (k / 2) ++ S "\n") ∈
        (writeCalibrator iso r t cal).1 ∧
      (S "nr_tasks=" ++ natToDigits (k / 2) ++ S "\n") ∈
        (writeHBATarget coordDeg tileFmt iso r t').1 := by
  obtain ⟨hval, hcount, hlen⟩ := imagingInit_fields g r h
  have hnn : 0 ≤ r.nSubBands :=
    countTokens_nonneg r.rcumode (splitL [','] r.subbands) hval r.nSubBands hcount
  have hchunk : S "nr_tasks=" ++ intToStr (Int.fdiv r.nSubBands 2) ++ S "\n"
      = S "nr_tasks=" ++ natToDigits (r.nSubBands.toNat / 2) ++ S "\n" := by
    rw [intToStr_fdiv_two r.nSubBands hnn]
  refine ⟨r.nSubBands.toNat, (Int.toNat_of_nonneg hnn).symm, ?_, ?_⟩
  · have hmem : (S "nr_tasks=" ++ intToStr (Int.fdiv r.nSubBands 2) ++ S "\n")
        ∈ (writeCalibrator iso r t cal).1 := by
      cases hg : getCalPointing cal
      · simp [writeCalibrator, hg]
      · simp [writeCalibrator, hg]
    rwa [hchunk] at hmem
  · obtain ⟨pn, hpn⟩ := packageNameChunk_ok r hb hlen
    have hmem : (S "nr_tasks=" ++ intToStr (Int.fdiv r.nSubBands 2) ++ S "\n")
        ∈ targetHeader iso r t' pn := by
      simp [targetHeader]
    have := writeHBATarget_hdr_mem coordDeg tileFmt iso r t' pn _ hpn hmem
    rwa [hchunk] at this

/-- C1 witness: the request built from `gC3` (11 subbands, one beam):
`nr_tasks` is rendered as `11 / 2 = 5` in both blocks. -/
theorem nr_tasks_floor_div_witness :
    imagingInit gC3 = .ok reqC3 ∧ 1 ≤ reqC3.nBeams ∧
    (∃ k : Nat, reqC3.nSubBands = (k : Int) ∧
      (S "nr_tasks=" ++ natToDigits (k / 2) ++ S "\n") ∈
        (writeCalibrator iso0 reqC3 0 (S "3C196")).1 ∧
      (S "nr_tasks=" ++ natToDigits (k / 2) ++ S "\n") ∈
        (writeHBATarget coord0 tile0 iso0 reqC3 0).1) :=
  ⟨by decide, by decide,
    nr_tasks_floor_div gC3 reqC3 coord0 tile0 iso0 0 0 (S "3C196")
      (by decide) (by decide)⟩

/-! ### Claim C10 -/

theorem targetIter_dur_invariant (r : Request) (d d' : ℚ) (idxs : List Nat) :
    targetIter { r with targetObsLength := d } idxs =
      targetIter { r with targetObsLength := d' } idxs := by
  induction idxs with
  | nil => rfl
  | cons i rest ih =>
    simp only [targetIter, ih]

theorem targetIter_chunks_shape (r : Request) (idxs : List Nat) :
    ∀ c ∈ (targetIter r idxs).1,
      endsL (S ";T;31200\n") c ∨ ∃ p, c = S "Demix=" ++ p := by
  induction idxs with
  | nil =>
    intro c hc
    simp [targetIter] at hc
  | cons i rest ih =>
    intro c hc
    simp only [targetIter] at hc
    rcases h0 : pyIndex r.demixLabel i with e | dmx <;> simp only [h0] at hc
    · simp at hc
    · rcases h1 : demixStrOf dmx with e | ds <;> simp only [h1] at hc
      · simp at hc
      · rcases h2 : pyIndex r.targetRA i with e | ra <;> simp only [h2] at hc
        · simp at hc
        · rcases h3 : pyIndex r.targetDec i with e | dec <;> simp only [h3] at hc
          · simp at hc
          · rcases h4 : pyIndex r.targetLabel i with e | lbl <;> simp only [h4] at hc
            · simp at hc
            · rcases h5 : targetIter r rest with ⟨cs, res⟩
              simp only [h5] at hc
              rcases List.mem_cons.mp hc with hceq | hc2
              · left
                refine ⟨ra ++ S ";" ++ dec ++ S ";" ++ lbl ++ S ";;;;", ?_⟩
                have h31 : S ";;;;;T;31200\n" = S ";;;;" ++ S ";T;31200\n" := by
                  decide
                rw [hceq]
                unfold beamLine
                rw [h31]
                simp [List.append_assoc]
              · rcases List.mem_cons.mp hc2 with hceq | hc3
                · right
                  refine ⟨replaceL [','] [';'] r.avg ++ S ";64;10;;" ++ ds ++ S ";F\n", ?_⟩
                  rw [hceq]
                  unfold demixLine
                  simp [List.append_assoc]
                · exact ih c (by rw [h5]; exact hc3)

/-- C10: the trailing per-beam duration fields are constants independent of
`observationDurationHours`: the whole calibrator block is unchanged under a
different requested duration, carries the fixed block duration 600, and its
beam line ends in `;T;1800`; in the target block the loop output is
unchanged under a different duration, every loop chunk is a user beam line
ending in `;T;31200` or a Demix line, the tile-beam line (present for more
than one beam) ends in `;F;31200`, and only the block-level
`targetDuration_s` line reflects the requested duration, as
`int(hours * 3600)` seconds. -/
theorem beam_duration_constants (coordDeg : PS → PS → ℚ × ℚ)
    (tileFmt : ℚ × ℚ → PS) (iso : ℚ → PS) (r : Request) (t : ℚ) (cal : PS)
    (d d' : ℚ) :
    writeCalibrator iso { r with targetObsLength := d } t cal =
      writeCalibrator iso { r with targetObsLength := d' } t cal ∧
    S "targetDuration_s=600\n" ∈ (writeCalibrator iso r t cal).1 ∧
    (∀ coord, getCalPointing cal = some coord →
      endsL (S ";T;1800\n") (coord ++ S ";" ++ cal ++ S ";;;;;T;1800\n") ∧
      (coord ++ S ";" ++ cal ++ S ";;;;;T;1800\n") ∈
        (writeCalibrator iso r t cal).1) ∧
    targetIter { r with targetObsLength := d } (List.range r.nBeams) =
      targetIter { r with targetObsLength := d' } (List.range r.nBeams) ∧
    (∀ c ∈ (targetIter r (List.range r.nBeams)).1,
      endsL (S ";T;31200\n") c ∨ ∃ p, c = S "Demix=" ++ p) ∧
    (∀ pn tb, packageNameChunk r = .ok pn → 1 < r.nBeams →
      getTileBeam coordDeg r = .ok tb →
      endsL (S ";F;31200\n") (tileFmt tb ++ S ";REF;256;1;;;F;31200\n") ∧
      (tileFmt tb ++ S ";REF;256;1;;;F;31200\n") ∈
        (writeHBATarget coordDeg tileFmt iso r t).1) ∧
    (∀ pn, packageNameChunk r = .ok pn →
      (S "targetDuration_s=" ++ intToStr (ratTrunc (r.targetObsLength * 3600))
        ++ S "\n") ∈ (writeHBATarget coordDeg tileFmt iso r t).1) := by
  refine ⟨rfl, ?_, ?_, targetIter_dur_invariant r d d' _,
    targetIter_chunks_shape r _, ?_, ?_⟩
  · cases hg : getCalPointing cal
    · simp [writeCalibrator, hg]
    · simp [writeCalibrator, hg]
  · intro coord hco
    constructor
    · refine ⟨coord ++ S ";" ++ cal ++ S ";;;;", ?_⟩
      have h18 : S ";;;;;T;1800\n" = S ";;;;" ++ S ";T;1800\n" := by decide
      rw [h18]
      simp [List.append_assoc]
    · simp [writeCalibrator, hco]
  · intro pn tb hpn hnb htb
    constructor
    · refine ⟨tileFmt tb ++ S ";REF;256;1;;", ?_⟩
      have hSF : S ";REF;256;1;;;F;31200\n" = S ";REF;256;1;;" ++ S ";F;31200\n" := by
        decide
      rw [hSF]
      simp [List.append_assoc]
    · simp only [writeHBATarget, hpn, if_pos hnb, htb]
      rcases h5 : targetIter r (List.range r.nBeams) with ⟨cs, res⟩
      cases res
      · exact List.mem_append_left _ (List.mem_append_right _ (by simp))
      · exact List.mem_append_left _
          (List.mem_append_left _ (List.mem_append_right _ (by simp)))
  · intro pn hpn
    exact writeHBATarget_hdr_mem coordDeg tileFmt iso r t pn _ hpn
      (by simp [targetHeader])

/-- C10 witness: a two-beam request exercising the tile-beam branch. -/
theorem beam_duration_constants_witness :
    packageNameChunk reqTwoBeam = .ok (S "packageName=A-B\n") ∧
    (getTileBeam coord0 reqTwoBeam).isOk ∧
    (writeCalibrator iso0 { reqTwoBeam with targetObsLength := 2 } 0 (S "3C295") =
       writeCalibrator iso0 { reqTwoBeam with targetObsLength := 3 } 0 (S "3C295") ∧
     S "targetDuration_s=600\n" ∈ (writeCalibrator iso0 reqTwoBeam 0 (S "3C295")).1 ∧
     (∀ coord, getCalPointing (S "3C295") = some coord →
       endsL (S ";T;1800\n") (coord ++ S ";" ++ S "3C295" ++ S ";;;;;T;1800\n") ∧
       (coord ++ S ";" ++ S "3C295" ++ S ";;;;;T;1800\n") ∈
         (writeCalibrator iso0 reqTwoBeam 0 (S "3C295")).1) ∧
     targetIter { reqTwoBeam with targetObsLength := 2 } (List.range reqTwoBeam.nBeams) =
       targetIter { reqTwoBeam with targetObsLength := 3 } (List.range reqTwoBeam.nBeams) ∧
     (∀ c ∈ (targetIter reqTwoBeam (List.range reqTwoBeam.nBeams)).1,
       endsL (S ";T;31200\n") c ∨ ∃ p, c = S "Demix=" ++ p) ∧
     (∀ pn tb, packageNameChunk reqTwoBeam = .ok pn → 1 < reqTwoBeam.nBeams →
       getTileBeam coord0 reqTwoBeam = .ok tb →
       endsL (S ";F;31200\n") (tile0 tb ++ S ";REF;256;1;;;F;31200\n") ∧
       (tile0 tb ++ S ";REF;256;1;;;F;31200\n") ∈
         (writeHBATarget coord0 tile0 iso0 reqTwoBeam 0).1) ∧
     (∀ pn, packageNameChunk reqTwoBeam = .ok pn →
       (S "targetDuration_s="
         ++ intToStr (ratTrunc (reqTwoBeam.targetObsLength * 3600)) ++ S "\n") ∈
         (writeHBATarget coord0 tile0 iso0 reqTwoBeam 0).1)) :=
  ⟨by decide, by decide,
    beam_duration_constants coord0 tile0 iso0 reqTwoBeam 0 (S "3C295") 2 3⟩
